import Mathlib

/-!
Verification of the appointment conflict detector and the patient-creation
service of a clinical-practice management backend.

The embedding models the document store as a list of records.  Times of day
are the `"HH:MM"` strings of the source, compared lexically exactly as the
host language compares strings (code-unit by code-unit); the comparison is
embedded as a structural recursion on the character lists so that it
evaluates.  A `Date` value is modelled as a calendar-day index together with
the milliseconds elapsed within that day; `setHours(0,0,0,0)` and
`setHours(23,59,59,999)` become the functions `startOfDay` and `endOfDay`,
and date comparison is the lexicographic order on the pair, which is the
timestamp order.
-/

namespace Kinesiology

/-- Lexicographic comparison of character lists by code unit, the `<` of the
host language on strings. -/
def jsLtList : List Char → List Char → Bool
  | [], [] => false
  | [], _ :: _ => true
  | _ :: _, [] => false
  | a :: as, b :: bs =>
    if a < b then true
    else if b < a then false
    else jsLtList as bs

/-- String `<` of the host language: lexicographic by code unit. -/
def jsLt (a b : String) : Bool := jsLtList a.data b.data

/-- String `<=` of the host language: `a <= b` is `!(b < a)`. -/
def jsLe (a b : String) : Bool := !(jsLt b a)

/-- String `>` of the host language. -/
def jsGt (a b : String) : Bool := jsLt b a

/-- String `>=` of the host language. -/
def jsGe (a b : String) : Bool := jsLe b a

/-- Appointment status, from the `status` enum of the Appointment schema. -/
inductive Status where
  | scheduled
  | confirmed
  | completed
  | cancelled
  | noShow
  | rescheduled
deriving DecidableEq, Repr

/-- A point in time: a calendar-day index and the milliseconds within the day.
A JS `Date` holding `day * 86400000 + ms` milliseconds since the epoch. -/
structure DateTime where
  day : Int
  ms : Nat
deriving DecidableEq, Repr

/-- The step `new Date(date); d.setHours(0, 0, 0, 0)` — same day, time zeroed. -/
def DateTime.startOfDay (d : DateTime) : DateTime := ⟨d.day, 0⟩

/-- The step `new Date(date); d.setHours(23, 59, 59, 999)` — same day, last
millisecond of the day. -/
def DateTime.endOfDay (d : DateTime) : DateTime := ⟨d.day, 86399999⟩

/-- Comparison of two dates, i.e. of their millisecond timestamps
`day * 86400000 + ms`, rendered as the lexicographic order on `(day, ms)`
(the timestamp order, since `ms` stays below `86400000` for every date the
system builds). -/
def DateTime.le (a b : DateTime) : Bool :=
  a.day < b.day || (a.day == b.day && a.ms ≤ b.ms)

/-- The fields of an Appointment document that the conflict detector reads:
`_id`, `practitioner`, `date`, `startTime`, `endTime`, `status`. -/
structure Appointment where
  id : Nat
  practitioner : String
  date : DateTime
  startTime : String
  endTime : String
  status : Status
deriving DecidableEq, Repr

/-- The query built by `checkConflict`:
`{ practitioner, date: { $gte: startOfDay, $lte: endOfDay },
   status: { $nin: [Cancelled, No-Show] } }`,
plus `_id: { $ne: excludeId }` when `excludeId` is given. -/
def matchesQuery (practitioner : String) (date : DateTime)
    (excludeId : Option Nat) (a : Appointment) : Bool :=
  a.practitioner == practitioner
    && DateTime.le date.startOfDay a.date
    && DateTime.le a.date date.endOfDay
    && !(a.status == Status.cancelled || a.status == Status.noShow)
    && (match excludeId with
        | none => true
        | some i => a.id != i)

/-- The load `await this.find(query)` — the candidate appointments the overlap scan
iterates over. -/
def candidates (store : List Appointment) (practitioner : String)
    (date : DateTime) (excludeId : Option Nat) : List Appointment :=
  store.filter (matchesQuery practitioner date excludeId)

/-- The per-appointment overlap test of `checkConflict`, verbatim:
`(newStart >= existingStart && newStart < existingEnd) ||
 (newEnd > existingStart && newEnd <= existingEnd) ||
 (newStart <= existingStart && newEnd >= existingEnd)`. -/
def timeConflict (newStart newEnd existingStart existingEnd : String) : Bool :=
  (jsGe newStart existingStart && jsLt newStart existingEnd)
    || (jsGt newEnd existingStart && jsLe newEnd existingEnd)
    || (jsLe newStart existingStart && jsGe newEnd existingEnd)

/-- The static method `AppointmentSchema.statics.checkConflict`: load the same-practitioner,
same-day, non-cancelled (and non-excluded) appointments and return `true`
as soon as one of them passes the overlap test, else `false`. -/
def checkConflict (store : List Appointment) (practitioner : String)
    (date : DateTime) (startTime endTime : String)
    (excludeId : Option Nat) : Bool :=
  (candidates store practitioner date excludeId).any
    (fun app => timeConflict startTime endTime app.startTime app.endTime)

/-- Genuine overlap of the half-open intervals `[s₁, e₁)` and `[s₂, e₂)`:
they share at least one instant. -/
def intervalsOverlap (s₁ e₁ s₂ e₂ : String) : Prop :=
  jsLt s₁ e₂ = true ∧ jsLt s₂ e₁ = true

/-- The store of the concrete scenario in the spec: practitioner "Dr. A" has one
`Scheduled` appointment on 2024-03-01 (day index 19783 since the epoch)
with interval `[14:00, 15:00)`. -/
def drAStore : List Appointment :=
  [⟨1, "Dr. A", ⟨19783, 36000000⟩, "14:00", "15:00", Status.scheduled⟩]

/-- The date 2024-03-01 as passed to the check (midnight of that day). -/
def drADate : DateTime := ⟨19783, 0⟩

/-! ### Order facts about the lexical string comparison -/

/-- The executable comparison agrees with the lexicographic relation
`List.Lex (· < ·)` on the character lists. -/
theorem jsLtList_iff_lex : ∀ a b : List Char, jsLtList a b = true ↔ List.Lex (· < ·) a b
  | [], [] => ⟨fun h => Bool.noConfusion h, fun h => by cases h⟩
  | [], _ :: _ => ⟨fun _ => List.Lex.nil, fun _ => rfl⟩
  | _ :: _, [] => ⟨fun h => Bool.noConfusion h, fun h => by cases h⟩
  | a :: as, b :: bs => by
    simp only [jsLtList]
    by_cases hab : a < b
    · simp only [if_pos hab]
      exact ⟨fun _ => List.Lex.rel hab, fun _ => trivial⟩
    · by_cases hba : b < a
      · simp only [if_neg hab, if_pos hba]
        constructor
        · intro h; exact Bool.noConfusion h
        · intro h
          cases h with
          | rel h' => exact absurd h' hab
          | cons h' => exact absurd hba (lt_irrefl a)
      · have heq : a = b := le_antisymm (not_lt.1 hba) (not_lt.1 hab)
        subst heq
        simp only [if_neg hab]
        rw [jsLtList_iff_lex as bs]
        exact List.Lex.cons_iff.symm

theorem jsLt_iff (a b : String) :
    jsLt a b = true ↔ List.Lex (· < ·) a.data b.data :=
  jsLtList_iff_lex a.data b.data

theorem jsLt_irrefl (a : String) : jsLt a a = false := by
  cases hlt : jsLt a a with
  | false => rfl
  | true =>
    have h := (jsLt_iff a a).1 hlt
    exact absurd h (asymm h)

theorem jsLt_asymm {a b : String} (h : jsLt a b = true) : jsLt b a = false := by
  cases hlt : jsLt b a with
  | false => rfl
  | true => exact absurd ((jsLt_iff b a).1 hlt) (asymm ((jsLt_iff a b).1 h))

theorem jsLt_trans {a b c : String} (h1 : jsLt a b = true) (h2 : jsLt b c = true) :
    jsLt a c = true :=
  (jsLt_iff a c).2 (IsTrans.trans _ _ _ ((jsLt_iff a b).1 h1) ((jsLt_iff b c).1 h2))

/-- From `b <= a < c` follows `b < c` (with `<=` expressed as a failed `<`). -/
theorem jsLt_of_nlt_of_lt {a b c : String} (h1 : jsLt a b = false)
    (h2 : jsLt a c = true) : jsLt b c = true := by
  rcases trichotomous_of (List.Lex (· < ·) : List Char → List Char → Prop) b.data a.data with h | h | h
  · exact jsLt_trans ((jsLt_iff b a).2 h) h2
  · show jsLtList b.data c.data = true
    rw [h]; exact h2
  · exact absurd ((jsLt_iff a b).2 h) (by simp [h1])

/-- From `a < b <= c` follows `a < c` (with `<=` expressed as a failed `<`). -/
theorem jsLt_of_lt_of_nlt {a b c : String} (h1 : jsLt a b = true)
    (h2 : jsLt c b = false) : jsLt a c = true := by
  rcases trichotomous_of (List.Lex (· < ·) : List Char → List Char → Prop) b.data c.data with h | h | h
  · exact jsLt_trans h1 ((jsLt_iff b c).2 h)
  · show jsLtList a.data c.data = true
    rw [← h]; exact h1
  · exact absurd ((jsLt_iff c b).2 h) (by simp [h2])

/-! ### Relating the source disjunction to genuine interval overlap -/

/-- A genuine overlap of the proposed and the existing interval always trips
the three-way disjunction of the source, with no well-formedness assumption. -/
theorem timeConflict_of_overlap {ns ne es ee : String}
    (h1 : jsLt ns ee = true) (h2 : jsLt es ne = true) :
    timeConflict ns ne es ee = true := by
  cases hns : jsLt ns es with
  | false => simp [timeConflict, jsGe, jsGt, jsLe, hns, h1]
  | true =>
    cases hee : jsLt ee ne with
    | true => simp [timeConflict, jsGe, jsGt, jsLe, jsLt_asymm hns, jsLt_asymm hee]
    | false => simp [timeConflict, jsGe, jsGt, jsLe, h2, hee]

/-- For well-formed intervals, the three-way disjunction of the source implies a
genuine overlap of the two half-open intervals. -/
theorem overlap_of_timeConflict {ns ne es ee : String}
    (hn : jsLt ns ne = true) (he : jsLt es ee = true)
    (h : timeConflict ns ne es ee = true) :
    jsLt ns ee = true ∧ jsLt es ne = true := by
  simp only [timeConflict, jsGe, jsGt, jsLe, Bool.or_eq_true, Bool.and_eq_true,
    Bool.not_eq_true'] at h
  rcases h with (⟨hge, hlt⟩ | ⟨hgt, hle⟩) | ⟨hle, hge⟩
  · exact ⟨hlt, jsLt_of_nlt_of_lt hge hn⟩
  · exact ⟨jsLt_of_lt_of_nlt hn hle, hgt⟩
  · exact ⟨jsLt_of_nlt_of_lt hle he, jsLt_of_lt_of_nlt he hge⟩

/-! ### Claim theorems -/

/-- C8: in the concrete scenario where practitioner "Dr. A" has exactly one
Scheduled appointment on 2024-03-01 with interval [14:00, 15:00),
`checkConflict` returns true for proposed [14:30, 14:45), false for
[15:00, 15:30), false for [13:00, 14:00), and true for [13:30, 14:30). -/
theorem checkConflict_drA_scenario :
    checkConflict drAStore "Dr. A" drADate "14:30" "14:45" none = true ∧
    checkConflict drAStore "Dr. A" drADate "15:00" "15:30" none = false ∧
    checkConflict drAStore "Dr. A" drADate "13:00" "14:00" none = false ∧
    checkConflict drAStore "Dr. A" drADate "13:30" "14:30" none = true := by
  decide

/-- C2: `checkConflict` returns `true` iff some stored appointment of the
given practitioner, dated within the inclusive day window of the given date,
with status neither Cancelled nor No-Show, and not excluded by `excludeId`,
has an interval `[existingStart, existingEnd)` satisfying one of: the new
start lies in `[existingStart, existingEnd)`, the new end lies in
`(existingStart, existingEnd]`, or the new interval contains the existing
one; otherwise it returns `false` (in particular on an empty candidate
set). -/
theorem checkConflict_characterization (store : List Appointment)
    (p : String) (d : DateTime) (ns ne : String) (ex : Option Nat) :
    checkConflict store p d ns ne ex = true ↔
      ∃ a ∈ store,
        a.practitioner = p ∧
        DateTime.le d.startOfDay a.date = true ∧
        DateTime.le a.date d.endOfDay = true ∧
        a.status ≠ Status.cancelled ∧
        a.status ≠ Status.noShow ∧
        (∀ i, ex = some i → a.id ≠ i) ∧
        ((jsGe ns a.startTime = true ∧ jsLt ns a.endTime = true) ∨
         (jsGt ne a.startTime = true ∧ jsLe ne a.endTime = true) ∨
         (jsLe ns a.startTime = true ∧ jsGe ne a.endTime = true)) := by
  cases ex with
  | none =>
    simp [checkConflict, candidates, List.any_eq_true, List.mem_filter,
      matchesQuery, timeConflict, Bool.and_eq_true, Bool.or_eq_true,
      Bool.not_eq_true', and_assoc, not_or, or_assoc]
  | some j =>
    simp [checkConflict, candidates, List.any_eq_true, List.mem_filter,
      matchesQuery, timeConflict, Bool.and_eq_true, Bool.or_eq_true,
      Bool.not_eq_true', and_assoc, not_or, or_assoc]

/-- Witness for C2: the backward direction of the characterization proves the
conflict on the stored appointment when the proposed end lands inside it. -/
theorem checkConflict_characterization_witness :
    checkConflict drAStore "Dr. A" drADate "13:30" "14:30" none = true := by
  apply (checkConflict_characterization drAStore "Dr. A" drADate "13:30" "14:30" none).2
  refine ⟨⟨1, "Dr. A", ⟨19783, 36000000⟩, "14:00", "15:00", Status.scheduled⟩,
    by decide, rfl, by decide, by decide, by decide, by decide, ?_,
    Or.inr (Or.inl ⟨by decide, by decide⟩)⟩
  intro i h
  exact absurd h (by simp)

/-- A candidate that passes the overlap test makes the scan answer `true`. -/
theorem checkConflict_of_mem {store : List Appointment} {p : String}
    {d : DateTime} {ns ne : String} {ex : Option Nat} {app : Appointment}
    (hmem : app ∈ candidates store p d ex)
    (h : timeConflict ns ne app.startTime app.endTime = true) :
    checkConflict store p d ns ne ex = true :=
  List.any_eq_true.2 ⟨app, hmem, h⟩

/-- A `false` answer means the overlap test failed on every candidate. -/
theorem timeConflict_false_of_checkConflict_false {store : List Appointment}
    {p : String} {d : DateTime} {ns ne : String} {ex : Option Nat}
    (h : checkConflict store p d ns ne ex = false) :
    ∀ x ∈ candidates store p d ex, timeConflict ns ne x.startTime x.endTime = false := by
  rw [checkConflict, List.any_eq_false] at h
  intro x hx
  simpa using h x hx

/-- C3: an appointment whose status is Cancelled or No-Show is filtered out of
the candidate set and never changes the answer of `checkConflict`, no matter
how much its interval overlaps the proposed one. -/
theorem cancelled_never_conflicts (a : Appointment) (store : List Appointment)
    (p : String) (d : DateTime) (ns ne : String) (ex : Option Nat)
    (h : a.status = Status.cancelled ∨ a.status = Status.noShow) :
    a ∉ candidates (a :: store) p d ex ∧
    checkConflict (a :: store) p d ns ne ex = checkConflict store p d ns ne ex := by
  have hq : matchesQuery p d ex a = false := by
    rcases h with h | h <;> simp [matchesQuery, h]
  constructor
  · intro hmem
    have hmq := (List.mem_filter.1 hmem).2
    rw [hq] at hmq
    exact Bool.noConfusion hmq
  · simp [checkConflict, candidates, List.filter_cons, hq]

/-- Witness for C3: a fully overlapping Cancelled appointment changes
nothing. -/
theorem cancelled_never_conflicts_witness :
    (⟨2, "Dr. A", ⟨19783, 0⟩, "14:00", "15:00", Status.cancelled⟩ : Appointment) ∉
        candidates
          (⟨2, "Dr. A", ⟨19783, 0⟩, "14:00", "15:00", Status.cancelled⟩ :: drAStore)
          "Dr. A" drADate none ∧
    checkConflict
        (⟨2, "Dr. A", ⟨19783, 0⟩, "14:00", "15:00", Status.cancelled⟩ :: drAStore)
        "Dr. A" drADate "14:00" "15:00" none =
      checkConflict drAStore "Dr. A" drADate "14:00" "15:00" none :=
  cancelled_never_conflicts _ drAStore "Dr. A" drADate "14:00" "15:00" none (Or.inl rfl)

/-- C4: back-to-back intervals sharing only an endpoint never conflict
(`a < b < c` lexically): when every candidate carries the interval `[a, b)` a
proposal `[b, c)` is conflict-free, and when every candidate carries `[b, c)`
a proposal `[a, b)` is conflict-free. -/
theorem back_to_back_no_conflict (store : List Appointment) (p : String)
    (d : DateTime) (a b c : String)
    (hab : jsLt a b = true) (hbc : jsLt b c = true) :
    ((∀ x ∈ candidates store p d none, x.startTime = a ∧ x.endTime = b) →
        checkConflict store p d b c none = false) ∧
    ((∀ x ∈ candidates store p d none, x.startTime = b ∧ x.endTime = c) →
        checkConflict store p d a b none = false) := by
  constructor
  · intro hall
    rw [checkConflict, List.any_eq_false]
    intro x hx
    obtain ⟨hs, he⟩ := hall x hx
    rw [hs, he]
    simp [timeConflict, jsGe, jsGt, jsLe, jsLt_irrefl, hab, hbc]
  · intro hall
    rw [checkConflict, List.any_eq_false]
    intro x hx
    obtain ⟨hs, he⟩ := hall x hx
    rw [hs, he]
    simp [timeConflict, jsGe, jsGt, jsLe, jsLt_irrefl, hab, hbc]

/-- Witness for C4: booking `[13:00, 14:00)` right before the stored
`[14:00, 15:00)` appointment is conflict-free. -/
theorem back_to_back_no_conflict_witness :
    checkConflict drAStore "Dr. A" drADate "13:00" "14:00" none = false :=
  (back_to_back_no_conflict drAStore "Dr. A" drADate "13:00" "14:00" "15:00"
      (by decide) (by decide)).2 (by decide)

/-- C5: containment conflicts in both directions: a proposal strictly inside a
candidate interval conflicts, and a proposal strictly containing a
candidate interval conflicts. -/
theorem containment_conflicts (store : List Appointment) (p : String)
    (d : DateTime) (app : Appointment) (ns ne : String)
    (hmem : app ∈ candidates store p d none) :
    (jsLt app.startTime ns = true → jsLt ns ne = true → jsLt ne app.endTime = true →
        checkConflict store p d ns ne none = true) ∧
    (jsLt ns app.startTime = true → jsLt app.startTime app.endTime = true →
        jsLt app.endTime ne = true →
        checkConflict store p d ns ne none = true) :=
  ⟨fun h1 h2 h3 =>
      checkConflict_of_mem hmem
        (timeConflict_of_overlap (jsLt_trans h2 h3) (jsLt_trans h1 h2)),
    fun h1 h2 h3 =>
      checkConflict_of_mem hmem
        (timeConflict_of_overlap (jsLt_trans h1 h2) (jsLt_trans h2 h3))⟩

/-- Witness for C5: `[13:30, 15:30)` strictly contains the stored
`[14:00, 15:00)` appointment and conflicts. -/
theorem containment_conflicts_witness :
    checkConflict drAStore "Dr. A" drADate "13:30" "15:30" none = true :=
  (containment_conflicts drAStore "Dr. A" drADate
      ⟨1, "Dr. A", ⟨19783, 36000000⟩, "14:00", "15:00", Status.scheduled⟩
      "13:30" "15:30" (by decide)).2 (by decide) (by decide) (by decide)

/-- C6: a candidate appointment (not excluded by `excludeId`) whose interval
equals the proposed well-formed interval always makes `checkConflict` answer
`true`. -/
theorem identical_interval_conflicts (store : List Appointment) (p : String)
    (d : DateTime) (ex : Option Nat) (app : Appointment)
    (hmem : app ∈ candidates store p d ex)
    (hwf : jsLt app.startTime app.endTime = true) :
    checkConflict store p d app.startTime app.endTime ex = true :=
  checkConflict_of_mem hmem
    (by simp [timeConflict, jsGe, jsGt, jsLe, jsLt_irrefl, hwf])

/-- Witness for C6: re-proposing the stored `[14:00, 15:00)` interval
conflicts. -/
theorem identical_interval_conflicts_witness :
    checkConflict drAStore "Dr. A" drADate "14:00" "15:00" none = true :=
  identical_interval_conflicts drAStore "Dr. A" drADate none
    ⟨1, "Dr. A", ⟨19783, 36000000⟩, "14:00", "15:00", Status.scheduled⟩
    (by decide) (by decide)

/-- C9: a zero-length proposed interval `[t, t)` whose start instant lands
inside a well-formed candidate interval still conflicts, because the first
disjunct only looks at the start instant. -/
theorem zero_length_proposal_conflicts (store : List Appointment) (p : String)
    (d : DateTime) (app : Appointment) (t : String)
    (hmem : app ∈ candidates store p d none)
    (hwf : jsLt app.startTime app.endTime = true)
    (h1 : jsLt t app.startTime = false) (h2 : jsLt t app.endTime = true) :
    checkConflict store p d t t none = true :=
  checkConflict_of_mem hmem (by simp [timeConflict, jsGe, jsGt, jsLe, h1, h2])

/-- Witness for C9: the empty proposal `[14:30, 14:30)` still conflicts with
the stored `[14:00, 15:00)` appointment. -/
theorem zero_length_proposal_conflicts_witness :
    checkConflict drAStore "Dr. A" drADate "14:30" "14:30" none = true :=
  zero_length_proposal_conflicts drAStore "Dr. A" drADate
    ⟨1, "Dr. A", ⟨19783, 36000000⟩, "14:00", "15:00", Status.scheduled⟩
    "14:30" (by decide) (by decide) (by decide) (by decide)

/-- Membership in the candidate set with an exclusion id is membership in the
unexcluded candidate set plus a distinct identifier. -/
theorem mem_candidates_some {store : List Appointment} {p : String}
    {d : DateTime} {j : Nat} {x : Appointment} :
    x ∈ candidates store p d (some j) ↔
      x ∈ candidates store p d none ∧ x.id ≠ j := by
  simp only [candidates, List.mem_filter, matchesQuery, Bool.and_eq_true]
  constructor
  · rintro ⟨hs, hb, hj⟩
    exact ⟨⟨hs, hb, trivial⟩, by simpa using hj⟩
  · rintro ⟨⟨hs, hb, _⟩, hj⟩
    exact ⟨hs, hb, by simpa using hj⟩

/-- C1: when the unexcluded candidates are well-formed and pairwise
non-overlapping, a `false` answer guarantees that the proposed well-formed
interval overlaps no candidate interval, so inserting it preserves pairwise
non-overlap: `false` is a safe-to-book guarantee. -/
theorem false_is_safe_to_book (store : List Appointment) (p : String)
    (d : DateTime) (ns ne : String)
    (hwf : jsLt ns ne = true)
    (hcand : ∀ x ∈ candidates store p d none, jsLt x.startTime x.endTime = true)
    (hpw : ((candidates store p d none).map fun x => (x.startTime, x.endTime)).Pairwise
        fun i j => ¬ intervalsOverlap i.1 i.2 j.1 j.2)
    (hfalse : checkConflict store p d ns ne none = false) :
    (((ns, ne) :: (candidates store p d none).map fun x => (x.startTime, x.endTime)).Pairwise
        fun i j => ¬ intervalsOverlap i.1 i.2 j.1 j.2) := by
  refine List.Pairwise.cons ?_ hpw
  intro q hq
  simp only [List.mem_map] at hq
  obtain ⟨x, hx, rfl⟩ := hq
  intro hov
  have htc := timeConflict_of_overlap hov.1 hov.2
  have hfx := timeConflict_false_of_checkConflict_false hfalse x hx
  rw [htc] at hfx
  exact Bool.noConfusion hfx

/-- Witness for C1: booking `[15:00, 15:30)` after the stored
`[14:00, 15:00)` appointment keeps the schedule pairwise non-overlapping. -/
theorem false_is_safe_to_book_witness :
    ((("15:00", "15:30")) ::
        (candidates drAStore "Dr. A" drADate none).map
          fun x => (x.startTime, x.endTime)).Pairwise
      (fun i j => ¬ intervalsOverlap i.1 i.2 j.1 j.2) :=
  false_is_safe_to_book drAStore "Dr. A" drADate "15:00" "15:30"
    (by decide) (by decide)
    (List.pairwise_singleton _ _)
    (by decide)

/-- C7: when every overlapping candidate carries the identifier `a₀.id`,
checking with `excludeId = a₀.id` answers `false`: an appointment being
edited does not conflict with its own stored state. -/
theorem exclude_self_no_conflict (store : List Appointment) (p : String)
    (d : DateTime) (ns ne : String) (a₀ : Appointment)
    (hwf : jsLt ns ne = true)
    (hcand : ∀ x ∈ candidates store p d none, jsLt x.startTime x.endTime = true)
    (hmem : a₀ ∈ candidates store p d none)
    (hov : intervalsOverlap ns ne a₀.startTime a₀.endTime)
    (huniq : ∀ x ∈ candidates store p d none,
        intervalsOverlap ns ne x.startTime x.endTime → x = a₀) :
    checkConflict store p d ns ne (some a₀.id) = false := by
  rw [checkConflict, List.any_eq_false]
  intro x hx
  obtain ⟨hx0, hne⟩ := mem_candidates_some.1 hx
  cases hconf : timeConflict ns ne x.startTime x.endTime with
  | false => simp
  | true =>
    have h := overlap_of_timeConflict hwf (hcand x hx0) hconf
    exact absurd (congrArg Appointment.id (huniq x hx0 ⟨h.1, h.2⟩)) hne

/-- Witness for C7: excluding the own id of the stored appointment while rechecking
an overlapping interval yields `false`. -/
theorem exclude_self_no_conflict_witness :
    checkConflict drAStore "Dr. A" drADate "14:30" "14:45" (some 1) = false :=
  exclude_self_no_conflict drAStore "Dr. A" drADate "14:30" "14:45"
    ⟨1, "Dr. A", ⟨19783, 36000000⟩, "14:00", "15:00", Status.scheduled⟩
    (by decide) (by decide) (by decide) ⟨by decide, by decide⟩
    (by intro x hx hov
        exact List.mem_singleton.1 hx)

/-! ### The patient-creation service -/

/-- A thrown service error: a message plus the optional ad hoc `statusCode`
field attached at throw time. -/
structure JSError where
  message : String
  statusCode : Option Nat
deriving DecidableEq, Repr

/-- The fields of a Patient document that the creation service reads. -/
structure Patient where
  idNumber : String
  firstName : String
deriving DecidableEq, Repr

/-- The catch-block repair `if (!error.statusCode) error.statusCode = 500`:
a missing (or zero, hence falsy) status code becomes 500. -/
def ensureStatusCode (e : JSError) : JSError :=
  match e.statusCode with
  | none => ⟨e.message, some 500⟩
  | some 0 => ⟨e.message, some 500⟩
  | some _ => e

/-- The lookup `Patient.findOne` by id number on the modelled store: the injected fault
when the datastore fails, otherwise the first stored patient with that id
number. -/
def patientFindOne (store : List Patient) (fault : Option JSError)
    (idNumber : String) : Except JSError (Option Patient) :=
  match fault with
  | some e => Except.error e
  | none => Except.ok (store.find? fun q => q.idNumber == idNumber)

/-- The insertion `Patient.create(patientData)` on the modelled store: the injected fault
when the datastore fails, otherwise the stored document and the new store. -/
def patientCreate (store : List Patient) (fault : Option JSError)
    (patientData : Patient) : Except JSError (Patient × List Patient) :=
  match fault with
  | some e => Except.error e
  | none => Except.ok (patientData, store ++ [patientData])

/-- The service method `PatientService.createPatient`: reject a duplicate `idNumber` with a 400
error before creating anything, otherwise create; the catch block stamps 500
on any escaping error that carries no status code.  The returned list is the
store after the call (unchanged whenever an error is thrown). -/
def createPatient (store : List Patient)
    (findOneFault createFault : Option JSError) (patientData : Patient) :
    Except JSError Patient × List Patient :=
  let body : Except JSError (Patient × List Patient) :=
    match patientFindOne store findOneFault patientData.idNumber with
    | Except.error e => Except.error e
    | Except.ok (some _) =>
        Except.error ⟨"Patient with this ID number already exists", some 400⟩
    | Except.ok none => patientCreate store createFault patientData
  match body with
  | Except.error e => (Except.error (ensureStatusCode e), store)
  | Except.ok q => (Except.ok q.1, q.2)

theorem ensureStatusCode_isSome (e : JSError) :
    (ensureStatusCode e).statusCode.isSome = true := by
  rcases e with ⟨m, sc⟩
  match sc with
  | none => rfl
  | some 0 => rfl
  | some (n + 1) => rfl

/-- C10: a duplicate `idNumber` is rejected with the 400 duplicate error and
the store is unchanged; with no duplicate the patient is created and
returned; every propagated error carries a status code, with 500 stamped on
an error that had none attached. -/
theorem createPatient_spec (store : List Patient)
    (findOneFault createFault : Option JSError) (patientData : Patient) :
    (findOneFault = none → (∃ q ∈ store, q.idNumber = patientData.idNumber) →
        createPatient store findOneFault createFault patientData =
          (Except.error ⟨"Patient with this ID number already exists", some 400⟩,
            store)) ∧
    (findOneFault = none → createFault = none →
        (∀ q ∈ store, q.idNumber ≠ patientData.idNumber) →
        createPatient store findOneFault createFault patientData =
          (Except.ok patientData, store ++ [patientData])) ∧
    (∀ e, (createPatient store findOneFault createFault patientData).1 =
            Except.error e →
        e.statusCode.isSome = true) ∧
    (∀ e, findOneFault = some e → e.statusCode = none →
        (createPatient store findOneFault createFault patientData).1 =
          Except.error ⟨e.message, some 500⟩) ∧
    (∀ e, findOneFault = none →
        (∀ q ∈ store, q.idNumber ≠ patientData.idNumber) →
        createFault = some e → e.statusCode = none →
        (createPatient store findOneFault createFault patientData).1 =
          Except.error ⟨e.message, some 500⟩) := by
  refine ⟨?dup, ?fresh, ?code, ?stamp, ?stampCreate⟩
  case dup =>
    rintro rfl ⟨q, hq, hid⟩
    cases hfind : store.find? fun r => r.idNumber == patientData.idNumber with
    | none =>
      exact absurd (beq_iff_eq.2 hid) (by simpa using List.find?_eq_none.1 hfind q hq)
    | some y =>
      simp [createPatient, patientFindOne, hfind, ensureStatusCode]
  case fresh =>
    rintro rfl rfl hall
    have hfind : (store.find? fun r => r.idNumber == patientData.idNumber) = none :=
      List.find?_eq_none.2 fun q hq => by simpa using hall q hq
    simp [createPatient, patientFindOne, patientCreate, hfind]
  case code =>
    intro e he
    cases findOneFault with
    | some f =>
      simp [createPatient, patientFindOne] at he
      rw [← he]
      exact ensureStatusCode_isSome f
    | none =>
      cases hfind : store.find? fun r => r.idNumber == patientData.idNumber with
      | some y =>
        simp [createPatient, patientFindOne, hfind] at he
        rw [← he]
        exact ensureStatusCode_isSome _
      | none =>
        cases createFault with
        | some c =>
          simp [createPatient, patientFindOne, patientCreate, hfind] at he
          rw [← he]
          exact ensureStatusCode_isSome c
        | none =>
          simp [createPatient, patientFindOne, patientCreate, hfind] at he
  case stamp =>
    rintro e rfl hsc
    rcases e with ⟨m, sc⟩
    cases hsc
    simp [createPatient, patientFindOne, ensureStatusCode]
  case stampCreate =>
    rintro e rfl hall rfl hsc
    rcases e with ⟨m, sc⟩
    cases hsc
    have hfind : (store.find? fun r => r.idNumber == patientData.idNumber) = none :=
      List.find?_eq_none.2 fun q hq => by simpa using hall q hq
    simp [createPatient, patientFindOne, patientCreate, hfind, ensureStatusCode]

/-- Witness for C10: a duplicate id number is rejected with the 400 error and
leaves the store alone; a fresh id number is stored and returned; a
create-stage fault carrying no status code escapes stamped with 500. -/
theorem createPatient_spec_witness :
    createPatient [⟨"123", "Ana"⟩] none none ⟨"123", "Bea"⟩ =
      (Except.error ⟨"Patient with this ID number already exists", some 400⟩,
        [⟨"123", "Ana"⟩]) ∧
    createPatient [⟨"123", "Ana"⟩] none none ⟨"456", "Bea"⟩ =
      (Except.ok ⟨"456", "Bea"⟩, [⟨"123", "Ana"⟩, ⟨"456", "Bea"⟩]) ∧
    (createPatient [⟨"123", "Ana"⟩] none (some ⟨"validation failed", none⟩)
        ⟨"456", "Bea"⟩).1 =
      Except.error ⟨"validation failed", some 500⟩ :=
  ⟨(createPatient_spec [⟨"123", "Ana"⟩] none none ⟨"123", "Bea"⟩).1 rfl
      ⟨⟨"123", "Ana"⟩, by decide, rfl⟩,
    (createPatient_spec [⟨"123", "Ana"⟩] none none ⟨"456", "Bea"⟩).2.1 rfl rfl
      (by decide),
    (createPatient_spec [⟨"123", "Ana"⟩] none (some ⟨"validation failed", none⟩)
        ⟨"456", "Bea"⟩).2.2.2.2 ⟨"validation failed", none⟩ rfl (by decide) rfl rfl⟩

end Kinesiology
